import Mathlib

/-
Verification of the seacat-auth identity server against its natural-language
specification.  The Python source is shallowly embedded: pure logic becomes
Lean functions, storage-backed services become explicit state passing over
function-typed stores, and exceptions become `Except` / sum results.
-/

set_option autoImplicit false

namespace SeacatAuth

set_option maxRecDepth 8000

/-- Decidable equality for `Except`, used to evaluate concrete runs of the
fallible embedded operations. -/
instance {e a : Type} [DecidableEq e] [DecidableEq a] : DecidableEq (Except e a) :=
  fun x y =>
    match x, y with
    | .ok v, .ok w => if h : v = w then isTrue (by rw [h]) else isFalse (by simp [h])
    | .error v, .error w => if h : v = w then isTrue (by rw [h]) else isFalse (by simp [h])
    | .ok _, .error _ => isFalse (by simp)
    | .error _, .ok _ => isFalse (by simp)

/-! ## Shared string constants

String literals of the source, bound to names so they can be passed as
function arguments. -/

def tenantScopePfx : String := "tenant:"

/-- Prefix test on character lists; executable model of Python's
`str.startswith` (and of `String.isPrefixOf`, which does not reduce in the
kernel). -/
def listIsPfxOf : List Char → List Char → Bool
  | [], _ => true
  | _ :: _, [] => false
  | c :: cs, d :: ds => c == d && listIsPfxOf cs ds

/-- `strStartsWith s p` is Python's `s.startswith(p)`. -/
def strStartsWith (s p : String) : Bool := listIsPfxOf p.data s.data

def bareTenantScope : String := "tenant"

def starKey : String := "*"

def errorKey : String := "error"

def errorDescriptionKey : String := "error_description"

def errorUriKey : String := "error_uri"

def stateKey : String := "state"

def codeKey : String := "code"

def loginRequiredCode : String := "login_required"

def accessDeniedCode : String := "access_denied"

def auditTenantNotFound : String := "access_denied:tenant_not_found"

def auditUnauthorizedTenant : String := "access_denied:unauthorized_tenant"

def auditUserHasNoTenant : String := "access_denied:user_has_no_tenant"

def superuserResource : String := "authz:superuser"

def impersonateResource : String := "authz:impersonate"

def credentialsIdVar : String := "credentials_id"

/-! ## Tenant service: `TenantService.get_tenants_by_scope`
(src/seacatauth/tenant/service.py, lines 330-372) -/

/-- Errors raised by `get_tenants_by_scope`.  The exception classes
(`TenantNotFoundError`, `TenantAccessDeniedError`, `NoTenantsError`) are
referenced by the services but their definitions are not part of the source
tree extract (src exceptions.py holds an older variant of the taxonomy);
they are modelled as distinct error kinds following the spec's error
taxonomy (§7). -/
inductive TenantScopeError where
  | tenantNotFoundError (tenant : String)
  | tenantAccessDeniedError (tenant : String) (subject : String)
  | noTenantsError (subject : String)
  deriving DecidableEq

/-- The storage-backed collaborators consulted by `get_tenants_by_scope`:
the credential's assigned tenants in assignment order (`get_tenants`),
tenant existence (`TenantProvider.get`, via `get_tenant`), and the
last-authorized tenant list (`LastActivityService.get_last_authorized_tenants`,
with `None` already collapsed to the empty list as the source does with
`or []`). -/
structure TenantDb where
  userTenants : List String
  tenantExists : String → Bool
  lastAuthorizedTenants : List String

/-- The `for resource in scope` loop of `get_tenants_by_scope`
(service.py lines 341-357), translated clause by clause:
entries not starting with `"tenant:"` are skipped, `"tenant:*"` adds every
assigned tenant, a tenant assigned to the credential is added, an unassigned
tenant is looked up and added when `has_access_to_all_tenants` is set
(`get_tenant` raising `TenantNotFoundError` when absent), otherwise
`NoTenantsError` is raised when the credential has no tenants at all and
`TenantAccessDeniedError` when it has some. -/
def get_tenants_by_scope_loop (db : TenantDb) (credential_id : String)
    (has_access_to_all_tenants : Bool) :
    List String → Finset String → Except TenantScopeError (Finset String)
  | [], tenants => .ok tenants
  | resource :: rest, tenants =>
    if ¬ (strStartsWith resource tenantScopePfx) then
      get_tenants_by_scope_loop db credential_id has_access_to_all_tenants rest tenants
    else
      let tenant := resource.drop tenantScopePfx.length
      if tenant = starKey then
        get_tenants_by_scope_loop db credential_id has_access_to_all_tenants rest
          (tenants ∪ db.userTenants.toFinset)
      else if tenant ∈ db.userTenants then
        get_tenants_by_scope_loop db credential_id has_access_to_all_tenants rest
          (insert tenant tenants)
      else if has_access_to_all_tenants then
        if db.tenantExists tenant then
          get_tenants_by_scope_loop db credential_id has_access_to_all_tenants rest
            (insert tenant tenants)
        else .error (.tenantNotFoundError tenant)
      else if db.userTenants = [] then .error (.noTenantsError credential_id)
      else .error (.tenantAccessDeniedError tenant credential_id)

/-- `TenantService.get_tenants_by_scope` (service.py lines 330-372): the scope
loop followed by the bare-`"tenant"` fallback (lines 359-371): when the loop
resolved no tenant and the scope contains the bare entry `"tenant"`, the
last-authorized tenants still assigned to the credential are consulted first,
then the first assigned tenant, and `NoTenantsError` is raised when the
credential has no tenants. -/
def get_tenants_by_scope (db : TenantDb) (scope : List String)
    (credential_id : String) (has_access_to_all_tenants : Bool) :
    Except TenantScopeError (Finset String) :=
  match get_tenants_by_scope_loop db credential_id has_access_to_all_tenants scope ∅ with
  | .error e => .error e
  | .ok tenants =>
    if tenants = ∅ ∧ bareTenantScope ∈ scope then
      match db.lastAuthorizedTenants.filter (fun t => t ∈ db.userTenants) with
      | t :: _ => .ok (insert t tenants)
      | [] =>
        match db.userTenants with
        | u :: _ => .ok (insert u tenants)
        | [] => .error (.noTenantsError credential_id)
    else .ok tenants

/-! ## URL model (the `urllib.parse` boundary)

The authorize handler manipulates URLs through `urllib.parse`.  The stdlib
functions are modelled executably: a parsed URL is a structure whose query is
already split into key-value pairs; percent-encoding and `params` (`;` in the
last path segment) are not used by the flows under verification and are left
out of the parser. -/

structure Url where
  scheme : String
  netloc : String
  path : String
  params : String
  query : List (String × String)
  fragment : String
  deriving DecidableEq

def querySepChar : Char := '&'

def queryEqChar : Char := '='

def fragmentChar : Char := '#'

def queryChar : Char := '?'

def slashChar : Char := '/'

def schemeSepChars : List Char := [':', '/', '/']

/-- Split at the first occurrence of character `sep`: the part before it and,
when `sep` occurs, the part after it. -/
def splitFirstChar (sep : Char) : List Char → List Char × Option (List Char)
  | [] => ([], none)
  | c :: rest =>
    if c == sep then ([], some rest)
    else
      let r := splitFirstChar sep rest
      (c :: r.1, r.2)

/-- Split at the first occurrence of the substring `pat`, when present. -/
def splitFirstSubstr (pat : List Char) : List Char → Option (List Char × List Char)
  | [] => none
  | c :: rest =>
    if listIsPfxOf pat (c :: rest) then some ([], (c :: rest).drop pat.length)
    else
      match splitFirstSubstr pat rest with
      | some (a, b) => some (c :: a, b)
      | none => none

/-- Split a character list on every occurrence of `sep`. -/
def splitOnCharList (sep : Char) : List Char → List (List Char)
  | [] => [[]]
  | c :: rest =>
    match splitOnCharList sep rest with
    | [] => [[]]
    | g :: gs => if c == sep then [] :: g :: gs else (c :: g) :: gs

/-- Split a raw query string into key-value pairs the way
`urllib.parse.parse_qs` tokenizes it: fields are separated by `&`, a field
without `=` or with a blank value is dropped (`keep_blank_values=False`). -/
def parseQueryPairs (l : List Char) : List (String × String) :=
  (splitOnCharList querySepChar l).filterMap (fun kv =>
    match splitFirstChar queryEqChar kv with
    | (_, none) => none
    | (k, some v) => if v = [] then none else some (String.mk k, String.mk v))

/-- Model of `urllib.parse.urlparse`: strip the fragment, split off the
scheme at `"://"` (the netloc is present exactly when it occurs), then split
the netloc at the first `/` and the query at the first `?`. -/
def urlparse (s : String) : Url :=
  let f := splitFirstChar fragmentChar s.data
  let fragment := String.mk (f.2.getD [])
  match splitFirstSubstr schemeSepChars f.1 with
  | some (schemeChars, hostRest) =>
    let np := splitFirstChar slashChar hostRest
    match np.2 with
    | some pathRest =>
      let pq := splitFirstChar queryChar pathRest
      { scheme := String.mk schemeChars, netloc := String.mk np.1,
        path := String.mk (slashChar :: pq.1), params := "",
        query := parseQueryPairs (pq.2.getD []), fragment := fragment }
    | none =>
      let nq := splitFirstChar queryChar hostRest
      { scheme := String.mk schemeChars, netloc := String.mk nq.1, path := "",
        params := "", query := parseQueryPairs (nq.2.getD []), fragment := fragment }
  | none =>
    let pq := splitFirstChar queryChar f.1
    { scheme := "", netloc := "", path := String.mk pq.1, params := "",
      query := parseQueryPairs (pq.2.getD []), fragment := fragment }

/-! ## Query-string dictionaries -/

/-- All values bound to key `k` in a key-value pair list, in order. -/
def valuesOf (k : String) (q : List (String × String)) : List String :=
  (q.filter (fun p => p.1 = k)).map Prod.snd

/-- Keys of a pair list in first-occurrence order (the iteration order of the
Python dict that `parse_qs` builds). -/
def firstKeys : List (String × String) → List String
  | [] => []
  | p :: rest => p.1 :: (firstKeys rest).filter (fun k => ¬ k = p.1)

/-- `urllib.parse.parse_qs` applied to an already-tokenized pair list: group
the values by key, keys in first-occurrence order. -/
def groupQuery (q : List (String × String)) : List (String × List String) :=
  (firstKeys q).map (fun k => (k, valuesOf k q))

/-- Assignment `d[k] = v` on a Python dict represented as an ordered
association list: replace in place when the key exists, append otherwise. -/
def dictSet (d : List (String × List String)) (k : String) (v : List String) :
    List (String × List String) :=
  if k ∈ d.map Prod.fst then d.map (fun p => if p.1 = k then (k, v) else p)
  else d ++ [(k, v)]

/-- `urllib.parse.urlencode(..., doseq=True)`: serialize a grouped dict back
into a flat pair sequence, one pair per value, in dict order. -/
def flattenDoseq (d : List (String × List String)) : List (String × String) :=
  (d.map (fun p => p.2.map (fun v => (p.1, v)))).flatten

/-! ## OAuth2/OIDC authorize handler replies
(src/seacatauth/openidconnect/handler/authorize.py) -/

def authorizePath : String := "/openidconnect/authorize"

/-- `AuthorizeHandler.reply_with_authentication_error` (authorize.py lines
655-698): build the `qs` dict from `error`, the optional `error_description`,
`error_uri` and `state`; when a `redirect_uri` is given, parse it, append its
query parameters whose names are not already in `qs` (last value wins, as
`v.pop()` does) and redirect to its scheme/netloc/path with query `qs`;
otherwise redirect to the public authorize endpoint with query `qs`. -/
def reply_with_authentication_error (publicApiBaseUrl : String) (error : String)
    (redirect_uri : Option String) (error_description : Option String)
    (error_uri : Option String) (state : Option String) : Url :=
  let qs : List (String × String) := [(errorKey, error)]
  let qs := match error_description with
    | some d => qs ++ [(errorDescriptionKey, d)]
    | none => qs
  let qs := match error_uri with
    | some u => qs ++ [(errorUriKey, u)]
    | none => qs
  let qs := match state with
    | some s => qs ++ [(stateKey, s)]
    | none => qs
  match redirect_uri with
  | some uri =>
    let parts := urlparse uri
    let qs := qs ++
      ((groupQuery parts.query).filter (fun p => ¬ p.1 ∈ qs.map Prod.fst)).map
        (fun p => (p.1, p.2.getLastD ("")))
    { scheme := parts.scheme, netloc := parts.netloc, path := parts.path,
      params := "", query := qs, fragment := "" }
  | none =>
    { scheme := "", netloc := "", path := publicApiBaseUrl ++ authorizePath,
      params := "", query := qs, fragment := "" }

/-- Core of `AuthorizeHandler.reply_with_successful_response` (authorize.py
lines 489-536), after the `urlparse` of `redirect_uri`: `url_qs` is the
`parse_qs` of the existing query; when the request carried a `state` it is
assigned into the dict verbatim; the freshly minted authorization `code` is
assigned into the dict; the redirect keeps scheme, netloc, path, params and
fragment and re-encodes the dict with `doseq=True`. -/
def reply_with_successful_response_core (code : String) (url : Url)
    (state : Option String) : Url :=
  let url_qs := groupQuery url.query
  let url_qs := match state with
    | some s => dictSet url_qs stateKey [s]
    | none => url_qs
  let url_qs := dictSet url_qs codeKey [code]
  { scheme := url.scheme, netloc := url.netloc, path := url.path,
    params := url.params, query := flattenDoseq url_qs, fragment := url.fragment }

/-- `AuthorizeHandler.reply_with_successful_response`: parse `redirect_uri`
and rebuild it with the code (and state) assigned into its query dict. -/
def reply_with_successful_response (code : String) (redirect_uri : String)
    (state : Option String) : Url :=
  reply_with_successful_response_core code (urlparse redirect_uri) state

/-! ## Audit log -/

/-- Audit entries appended by the authorize flow: `audit_authorize_error`
appends an `AUTHORIZE_ERROR` record carrying the error string,
`audit_authorize_success` appends an `AUTHORIZE_SUCCESS` record. -/
inductive AuditRecord where
  | authorizeError (client_id : String) (error : String)
  | authorizeSuccess (cid : String) (client_id : String)
  deriving DecidableEq

/-- `AuthorizeHandler.authorize_tenants_by_scope` (authorize.py lines
721-756): delegate to `TenantService.get_tenants_by_scope`; on
`TenantNotFoundError` / `TenantAccessDeniedError` / `NoTenantsError` append
one audit error record with the matching `access_denied:*` sub-reason and
raise `AccessDeniedError` (the `.error ()` outcome).  The
`has_access_to_all_tenants` flag is computed by the caller from the RBAC
service and is taken as a parameter here. -/
def authorize_tenants_by_scope_handler (db : TenantDb) (scope : List String)
    (credential_id : String) (has_access_to_all_tenants : Bool)
    (client_id : String) : Except Unit (Finset String) × List AuditRecord :=
  match get_tenants_by_scope db scope credential_id has_access_to_all_tenants with
  | .ok tenants => (.ok tenants, [])
  | .error (.tenantNotFoundError _) =>
    (.error (), [.authorizeError client_id auditTenantNotFound])
  | .error (.tenantAccessDeniedError _ _) =>
    (.error (), [.authorizeError client_id auditUnauthorizedTenant])
  | .error (.noTenantsError _) =>
    (.error (), [.authorizeError client_id auditUserHasNoTenant])

/-- Outcome of the tenant-authorization step of
`AuthorizeHandler.authentication_code_flow` (authorize.py lines 418-426):
either the flow proceeds with the resolved tenant set, or the
`AccessDeniedError` raised by `authorize_tenants_by_scope` is caught and
answered with `reply_with_authentication_error(access_denied, redirect_uri,
state)`. -/
structure TenantStepResult where
  reply : Option Url
  tenants : Option (Finset String)
  audit : List AuditRecord

/-- The tenant-authorization step of `authentication_code_flow`. -/
def authentication_code_flow_tenant_step (publicApiBaseUrl : String)
    (db : TenantDb) (scope : List String) (credential_id : String)
    (has_access_to_all_tenants : Bool) (client_id redirect_uri : String)
    (state : Option String) : TenantStepResult :=
  match authorize_tenants_by_scope_handler db scope credential_id
      has_access_to_all_tenants client_id with
  | (.ok ts, audit) => { reply := none, tenants := some ts, audit := audit }
  | (.error _, audit) =>
    { reply := some (reply_with_authentication_error publicApiBaseUrl
        accessDeniedCode (some redirect_uri) none none state),
      tenants := none, audit := audit }

/-- The `prompt=none` / no-valid-root-session branch of
`authentication_code_flow` (authorize.py lines 372-391): append one audit
error record with error `login_required` and return the error reply, creating
no login session and no client session.  Note that the source passes
`request` as the first positional argument of
`reply_with_authentication_error`, so the parameters shift by one: `error`
receives the request object (stringified by `urlencode`; `requestRepr`
here), `redirect_uri` receives the constant string `"login_required"` and
`error_description` receives the actual redirect URI. -/
structure PromptNoneBranchResult where
  location : Url
  audit : List AuditRecord
  loginSessionCreated : Bool
  clientSessionCreated : Bool

/-- The `prompt=none` branch itself. -/
def authorize_prompt_none_no_session (publicApiBaseUrl requestRepr : String)
    (client_id redirect_uri : String) (state : Option String) :
    PromptNoneBranchResult :=
  { location := reply_with_authentication_error publicApiBaseUrl requestRepr
      (some loginRequiredCode) (some redirect_uri) none state,
    audit := [.authorizeError client_id loginRequiredCode],
    loginSessionCreated := false,
    clientSessionCreated := false }

/-! ## Authorization computation for derived cookie sessions
(src/seacatauth/cookie/service.py, `CookieService.create_cookie_client_session`,
lines 128-203) -/

/-- Modelled from the spec: `authz_session_builder` /
`computeAuthorization(credentialsId, tenantScope, excludeResources)` (§4.5);
`session/builders.py` is not part of the source tree extract.  For each
tenant in scope plus the global scope `"*"`, the resources of every role
assigned to the credential in that scope are unioned (`assigned` abstracts
the per-scope role-resource union); global-scope resources are included in
every tenant's effective set except the `GlobalOnlyResources`, which are
excluded from tenant-scoped sets even if nominally assigned;
`excludeResources` is applied last, as a final set-difference on every
scope's set. -/
def computeAuthorization (assigned : String → Finset String)
    (globalOnly : Finset String) (tenants : List String)
    (excludeResources : Finset String) : List (String × Finset String) :=
  (starKey, assigned starKey \ excludeResources) ::
    tenants.map (fun t =>
      (t, ((assigned t ∪ assigned starKey) \ globalOnly) \ excludeResources))

/-- The impersonation back-references carried in a session's
`Authentication` section. -/
structure RootSessionAuthn where
  impersonatorSessionId : Option String
  impersonatorCredentialsId : Option String

/-- `create_cookie_client_session` (cookie/service.py lines 139-143): when
the root session carries an impersonator back-reference, the dangerous
resources `authz:superuser` and `authz:impersonate` are passed to the authz
session builder as `exclude_resources`. -/
def create_cookie_client_session_exclude (authn : RootSessionAuthn) :
    Option (Finset String) :=
  if authn.impersonatorSessionId.isSome then
    some {superuserResource, impersonateResource}
  else none

/-- The authorization map computed for the new cookie client session
(cookie/service.py lines 145-156): the `authz_session_builder` contribution,
with `exclude_resources` as computed above (`none` behaves as the empty
exclusion set). -/
def create_cookie_client_session_authz (assigned : String → Finset String)
    (globalOnly : Finset String) (tenants : List String)
    (authn : RootSessionAuthn) : List (String × Finset String) :=
  computeAuthorization assigned globalOnly tenants
    ((create_cookie_client_session_exclude authn).getD ∅)

/-! ## Resource service
(src/seacatauth/authz/resource/service.py) -/

/-- A stored resource document.  `rid` is Mongo's `_id`, `version` is `_v`;
the flags mirror the optional document keys (`read_only`, `global_only`,
`deleted`) with absence as `false` / `none`. -/
structure ResourceDoc where
  rid : String
  version : Nat
  description : Option String
  managed_by : Option String
  read_only : Bool
  global_only : Bool
  deleted : Bool
  deriving DecidableEq

/-- Python truthiness of an optional string (`resource.get("managed_by")`). -/
def optStrTruthy : Option String → Bool
  | none => false
  | some s => ¬ s = ""

/-- `ResourceService.normalize_resource` (resource/service.py lines 292-297):
mark the document read-only when its id is a built-in resource or it has a
truthy `managed_by`, and mark it global-only when its id is in
`GlobalOnlyResources`.  The id sets come from `models/const.py`, which is not
part of the source tree extract, so they are parameters here. -/
def normalize_resource (builtins globalOnly : List String) (r : ResourceDoc) :
    ResourceDoc :=
  let r := if r.rid ∈ builtins ∨ optStrTruthy r.managed_by then
    { r with read_only := true } else r
  if r.rid ∈ globalOnly then { r with global_only := true } else r

/-- Errors of the resource service: `ResourceNotFoundError` (from `get`) and
`NotEditableError` (from `assert_resource_is_editable`). -/
inductive ResourceServiceError where
  | resourceNotFoundError (rid : String)
  | notEditableError
  deriving DecidableEq

/-- The resource collection, keyed by resource id. -/
def ResourceStore := String → Option ResourceDoc

/-- `ResourceService.get` (lines 152-157): look the document up and
normalize it. -/
def resource_get (builtins globalOnly : List String) (store : ResourceStore)
    (rid : String) : Except ResourceServiceError ResourceDoc :=
  match store rid with
  | none => .error (.resourceNotFoundError rid)
  | some r => .ok (normalize_resource builtins globalOnly r)

/-- `assert_resource_is_editable` (lines 300-304). -/
def assert_resource_is_editable (r : ResourceDoc) :
    Except ResourceServiceError Unit :=
  if r.read_only then .error .notEditableError else .ok ()

/-- `ResourceService.update` (lines 186-208): `get` the resource, assert it
is editable, then upsert only the description (unset when `""`) against the
stored document, bumping the storage version. -/
def resource_update (builtins globalOnly : List String) (store : ResourceStore)
    (rid : String) (description : String) :
    ResourceStore × Except ResourceServiceError Unit :=
  match store rid with
  | none => (store, .error (.resourceNotFoundError rid))
  | some raw =>
    let r := normalize_resource builtins globalOnly raw
    if r.read_only then (store, .error .notEditableError)
    else
      let newDoc := { raw with
        description := if description = "" then none else some description,
        version := raw.version + 1 }
      (fun x => if x = rid then some newDoc else store x, .ok ())

/-- `ResourceService.delete` (lines 211-241): `get` the resource, assert it
is editable, unassign it from all roles (a RoleService side effect outside
this store), then either hard-delete the document or soft-delete it by
setting the `deleted` flag. -/
def resource_delete (builtins globalOnly : List String) (store : ResourceStore)
    (rid : String) (hard_delete : Bool) :
    ResourceStore × Except ResourceServiceError Unit :=
  match store rid with
  | none => (store, .error (.resourceNotFoundError rid))
  | some raw =>
    let r := normalize_resource builtins globalOnly raw
    if r.read_only then (store, .error .notEditableError)
    else if hard_delete then
      (fun x => if x = rid then none else store x, .ok ())
    else
      let newDoc := { raw with deleted := true, version := raw.version + 1 }
      (fun x => if x = rid then some newDoc else store x, .ok ())

/-! ### Resource name validation (`ResourceService.create`, lines 160-165) -/

def isAsciiLowerAlpha (c : Char) : Bool := 'a' ≤ c && c ≤ 'z'

def isAsciiDigit (c : Char) : Bool := '0' ≤ c && c ≤ '9'

def isAsciiLowerAlnum (c : Char) : Bool := isAsciiLowerAlpha c || isAsciiDigit c

/-- The character class `[a-z0-9:._-]` of `ResourceNamePattern`. -/
def isResourceNameInnerChar (c : Char) : Bool :=
  isAsciiLowerAlnum c || c == ':' || c == '.' || c == '_' || c == '-'

/-- Full match of `ResourceService.ResourceNamePattern`, the regex
`^[a-z][a-z0-9:._-]{0,128}[a-z0-9]$` (resource/service.py line 19, compiled
with anchors at line 95).  In a full match the decomposition is forced by the
total length: the first character matches `[a-z]`, the last matches
`[a-z0-9]`, and the characters in between - at most 128 of them - match the
inner class. -/
def resourceNameMatches (l : List Char) : Bool :=
  match l with
  | [] => false
  | c :: rest =>
    match rest.getLast? with
    | none => false
    | some lastC =>
      isAsciiLowerAlpha c && rest.length - 1 ≤ 128
        && rest.dropLast.all isResourceNameInnerChar && isAsciiLowerAlnum lastC

/-- `ResourceService.create` accepts `resource_id` exactly when
`ResourceIdRegex.match` succeeds; otherwise it raises a `ValidationError`
whose message documents the rule "between 2 and 128 characters long"
(lines 160-165). -/
def resource_create_accepts (resource_id : String) : Bool :=
  resourceNameMatches resource_id.data

/-! ## Authentication handler: `login`
(src/seacatauth/authn/handler.py, lines 171-279) -/

/-- The `SeacatLogin` part of a login session that the `login` handler
reads: the credentials id (empty for a decoy session), the raw ident and the
remaining-attempts counter. -/
structure SeacatLoginData where
  credentialsId : String
  ident : String
  loginAttemptsLeft : Int
  deriving DecidableEq

/-- Modelled from the spec: the Login Session Store (§4.2) behind
`AuthenticationService.get_login_session` / `update_login_session` /
`delete_login_session` (`authn/service.py` is not part of the source tree
extract).  `get` fails (`KeyError`, i.e. `none`) when the id is absent;
`update` overwrites fields; `delete` removes unconditionally. -/
def LoginSessionStore := String → Option SeacatLoginData

/-- Store after `delete_login_session`. -/
def login_store_delete (store : LoginSessionStore) (lsid : String) :
    LoginSessionStore :=
  fun x => if x = lsid then none else store x

/-- Store after `update_login_session` writing the given record. -/
def login_store_update (store : LoginSessionStore) (lsid : String)
    (d : SeacatLoginData) : LoginSessionStore :=
  fun x => if x = lsid then some d else store x

/-- `AuthenticationService.get_login_session`, modelled from the spec (§4.2):
`none` is the `KeyError` / `NotFound` outcome. -/
def get_login_session (store : LoginSessionStore) (lsid : String) :
    Option SeacatLoginData :=
  store lsid

/-- The uniform responses of the `login` handler: every failure is the
`{"result": "FAILED"}` / HTTP 401 shape; success is the encrypted OK body
with credentials id and new root session id. -/
inductive LoginResponse where
  | failed401
  | loginOk (cid : String) (sid : String)
  deriving DecidableEq

/-- Result of one `login` call: the store afterwards, the response, and the
remaining-attempts value written by `update_login_session` during the call
(`none` when no update was issued). -/
structure LoginStepResult where
  store : LoginSessionStore
  response : LoginResponse
  attemptsWritten : Option Int

/-- `AuthenticationHandler.login` (authn/handler.py lines 171-279) as a step
on the login session store.  Flow: look the login session up (`KeyError` ->
FAILED/401); if `LoginAttemptsLeft <= 0`, delete the login session and
answer FAILED/401; otherwise write `login_attempts_left - 1` through
`update_login_session` before validating, then run
`AuthenticationService.authenticate` (its verdict is the `authenticated`
parameter); on failure answer FAILED/401, on success promote the login
session into a new root session (which deletes the login session, per the
spec's LoginSession lifecycle) and answer OK. -/
def login_handler_step (store : LoginSessionStore) (lsid : String)
    (authenticated : Bool) (newRootSessionId : String) : LoginStepResult :=
  match store lsid with
  | none => ⟨store, .failed401, none⟩
  | some ls =>
    if ls.loginAttemptsLeft ≤ 0 then
      ⟨login_store_delete store lsid, .failed401, none⟩
    else
      let ls' := { ls with loginAttemptsLeft := ls.loginAttemptsLeft - 1 }
      let store' := login_store_update store lsid ls'
      if authenticated then
        ⟨login_store_delete store' lsid, .loginOk ls.credentialsId newRootSessionId,
          some ls'.loginAttemptsLeft⟩
      else ⟨store', .failed401, some ls'.loginAttemptsLeft⟩

/-! ## Authentication handler: `login_prologue`
(src/seacatauth/authn/handler.py, lines 89-168) -/

/-- Outcomes of `login_prologue`: the success JSON response (login session
id, exported server public key, serialized login descriptors), the
`ValidationError` on repeated custom query parameters, the failure of
`get_login_session` on an unknown `lsid`, and an uncaught Python
`NameError` on reading a never-assigned local variable. -/
inductive PrologueOutcome where
  | prologueResponse (lsid : String) (serverPublicKey : String)
      (loginDescriptors : List String)
  | prologueValidationError
  | prologueSessionNotFound
  | prologueNameError (varName : String)
  deriving DecidableEq

/-- The request data of `login_prologue`: the ident, the optional `lsid`,
and the optional `qs` parameter already split by `urllib.parse.parse_qs`
into parameter names with their value lists. -/
structure PrologueRequest where
  ident : String
  lsid : Option String
  qs : Option (List (String × List String))

/-- `AuthenticationHandler.login_prologue` (authn/handler.py lines 89-168),
translated control-flow step by step: parse the client JWK (schema-validated
upstream), process `qs` (a repeated custom login parameter raises
`ValidationError`, line 116), get or create the login session (lines
123-126; `get_login_session` is modelled from the spec, failing on an
unknown id), and then line 128 evaluates `if credentials_id != "":` - but no
statement of the function ever assigns the local variable `credentials_id`,
so the interpreter raises `NameError` here on every request that reaches
this line, and none of the remaining lines (the credential checks, the
`prepare_seacat_login` call and the success response, lines 129-168) is
reachable. -/
def login_prologue (customLoginParameters : List String)
    (loginSessionExists : String → Bool) (req : PrologueRequest) :
    PrologueOutcome :=
  let qsBad := match req.qs with
    | none => false
    | some l => l.any (fun p => decide (p.1 ∈ customLoginParameters) && p.2.length > 1)
  if qsBad then .prologueValidationError
  else
    let sessionOk := match req.lsid with
      | some i => loginSessionExists i
      | none => true
    if sessionOk then .prologueNameError credentialsIdVar
    else .prologueSessionNotFound

/-- Whether a `login_prologue` outcome is the success response. -/
def prologue_is_success : PrologueOutcome → Bool
  | .prologueResponse _ _ _ => true
  | _ => false

/-! ## Specification-side vocabulary -/

/-- The audit sub-reason the spec associates with each tenant-scope denial:
`tenant_not_found` for a nonexistent tenant, `unauthorized_tenant` for a
denied tenant, `user_has_no_tenant` for a credential with no tenants. -/
def tenant_scope_denial_sub_reason : TenantScopeError → String
  | .tenantNotFoundError _ => auditTenantNotFound
  | .tenantAccessDeniedError _ _ => auditUnauthorizedTenant
  | .noTenantsError _ => auditUserHasNoTenant

/-- The credential's most-recently-authorized tenant that is still assigned
to it, when one is recorded: the first entry of the last-authorized list that
is among the credential's tenants. -/
def most_recently_authorized (db : TenantDb) : Option String :=
  db.lastAuthorizedTenants.find? (fun t => decide (t ∈ db.userTenants))

/-! ## Concrete fixtures used to instantiate the theorems -/

def publicApiBaseUrlExample : String := "https://auth.example"

def requestReprExample : String := "<Request GET /openidconnect/authorize>"

def clientIdExample : String := "client1"

def credentialsIdExample : String := "cred1"

def redirectUriExample : String := "https://client.example/cb"

def redirectUriWithCodeExample : String := "https://client.example/cb?code=old&foo=bar"

def newCodeExample : String := "newcode"

def fooKeyExample : String := "foo"

def lsidExample : String := "ls1"

def rootSidExample : String := "sid1"

def tenantDbExample : TenantDb :=
  { userTenants := ["acme", "beta"],
    tenantExists := fun t => t == "acme",
    lastAuthorizedTenants := ["beta"] }

def tenantDbEmpty : TenantDb :=
  { userTenants := [], tenantExists := fun _ => false, lastAuthorizedTenants := [] }

def tenantScopeExample : List String := ["openid", "tenant:acme"]

def bareTenantScopeExample : List String := ["openid", "tenant"]

def loginDataExample : SeacatLoginData :=
  { credentialsId := "cred1", ident := "user1", loginAttemptsLeft := 3 }

def loginStoreExample : LoginSessionStore :=
  fun x => if x = lsidExample then some loginDataExample else none

def resourceDocExample : ResourceDoc :=
  { rid := superuserResource, version := 1, description := none,
    managed_by := some ("seacat-auth"), read_only := false,
    global_only := false, deleted := false }

def resourceStoreExample : ResourceStore :=
  fun x => if x = superuserResource then some resourceDocExample else none

def rolesExample : String → Finset String :=
  fun s => if s = starKey then {superuserResource, impersonateResource} else
    {superuserResource, "app:read"}

def impersonatedAuthnExample : RootSessionAuthn :=
  { impersonatorSessionId := some ("sid0"), impersonatorCredentialsId := some ("cred0") }

/-! # Theorems -/

/-- Claim C1: for every login session and every `login()` call on it, the
remaining-attempts counter decreases by exactly 1 regardless of whether the
attempt succeeds or fails (the handler writes `LoginAttemptsLeft - 1` through
`update_login_session` before validating); and once the counter has reached
0, the next login request on that session answers the uniform FAILED/401
response and the login session record is deleted, so a subsequent get on the
same id fails. -/
theorem claim_C1_login_attempt_accounting
    (store : LoginSessionStore) (lsid : String) (ls : SeacatLoginData)
    (authenticated : Bool) (sid : String)
    (hls : store lsid = some ls) :
    (0 < ls.loginAttemptsLeft →
      (login_handler_step store lsid authenticated sid).attemptsWritten
        = some (ls.loginAttemptsLeft - 1)
      ∧ (authenticated = false →
        (login_handler_step store lsid authenticated sid).store lsid
          = some { ls with loginAttemptsLeft := ls.loginAttemptsLeft - 1 }))
    ∧ (ls.loginAttemptsLeft ≤ 0 →
      (login_handler_step store lsid authenticated sid).response = .failed401
      ∧ get_login_session (login_handler_step store lsid authenticated sid).store lsid
          = none) := by
  constructor
  · intro hpos
    have hnot : ¬ ls.loginAttemptsLeft ≤ 0 := by omega
    constructor
    · cases authenticated <;> simp [login_handler_step, hls, hnot]
    · intro hauth
      subst hauth
      simp [login_handler_step, hls, hnot, login_store_update]
  · intro hle
    constructor
    · simp [login_handler_step, hls, hle]
    · simp [login_handler_step, hls, hle, get_login_session, login_store_delete]

/-- Witness for C1 at a concrete store holding a login session with 3
remaining attempts: a failed attempt writes 2 back and the stored record is
the decremented one. -/
theorem claim_C1_login_attempt_accounting_witness :
    (login_handler_step loginStoreExample lsidExample false rootSidExample).attemptsWritten
      = some 2
    ∧ (false = false →
      (login_handler_step loginStoreExample lsidExample false rootSidExample).store lsidExample
        = some { loginDataExample with loginAttemptsLeft := 2 }) :=
  (claim_C1_login_attempt_accounting loginStoreExample lsidExample loginDataExample
    false rootSidExample rfl).1 (by decide)

/-- Claim C2: for every derived cookie client session created from a root
session carrying an impersonator back-reference, the computed authorization
set of the new session excludes `authz:superuser` and `authz:impersonate`
in every scope (global and tenant), even when the target credential's roles
would otherwise grant them. -/
theorem claim_C2_impersonated_session_excludes_superuser
    (assigned : String → Finset String) (globalOnly : Finset String)
    (tenants : List String) (authn : RootSessionAuthn) (sid : String)
    (himp : authn.impersonatorSessionId = some sid)
    (key : String) (S : Finset String)
    (hmem : (key, S) ∈ create_cookie_client_session_authz assigned globalOnly tenants authn) :
    superuserResource ∉ S ∧ impersonateResource ∉ S := by
  have hex : create_cookie_client_session_exclude authn
      = some {superuserResource, impersonateResource} := by
    simp [create_cookie_client_session_exclude, himp]
  unfold create_cookie_client_session_authz at hmem
  rw [hex] at hmem
  simp only [Option.getD_some, computeAuthorization, List.mem_cons, List.mem_map,
    Prod.mk.injEq] at hmem
  rcases hmem with ⟨hk, hS⟩ | ⟨t, ht, hk, hS⟩
  · subst hS
    exact ⟨fun h => (Finset.mem_sdiff.mp h).2 (by decide),
      fun h => (Finset.mem_sdiff.mp h).2 (by decide)⟩
  · subst hS
    exact ⟨fun h => (Finset.mem_sdiff.mp h).2 (by decide),
      fun h => (Finset.mem_sdiff.mp h).2 (by decide)⟩

/-- Witness for C2: an impersonated root session over a credential whose
roles grant superuser both globally and in tenant `acme`; the derived
session's per-scope sets contain neither dangerous resource. -/
theorem claim_C2_impersonated_session_excludes_superuser_witness :
    superuserResource ∉ ({"app:read"} : Finset String)
    ∧ impersonateResource ∉ ({"app:read"} : Finset String) :=
  claim_C2_impersonated_session_excludes_superuser rolesExample ∅ ["acme"]
    impersonatedAuthnExample ("sid0") rfl ("acme") {"app:read"} (by decide)

/-- Claim C7: for every resource whose normalized document is marked
read-only (in particular every built-in resource id and every document with
a truthy `managed_by`), `ResourceService.update` and
`ResourceService.delete` fail with `NotEditableError` and leave the stored
collection unchanged. -/
theorem claim_C7_managed_resource_not_editable
    (builtins globalOnly : List String) (store : ResourceStore) (rid : String)
    (raw : ResourceDoc) (description : String) (hard_delete : Bool)
    (hstore : store rid = some raw)
    (hro : (normalize_resource builtins globalOnly raw).read_only = true) :
    resource_update builtins globalOnly store rid description
      = (store, .error .notEditableError)
    ∧ resource_delete builtins globalOnly store rid hard_delete
      = (store, .error .notEditableError)
    ∧ (∀ doc : ResourceDoc, doc.rid ∈ builtins →
        (normalize_resource builtins globalOnly doc).read_only = true) := by
  refine ⟨?_, ?_, ?_⟩
  · simp [resource_update, hstore, hro]
  · simp [resource_delete, hstore, hro]
  · intro doc hb
    unfold normalize_resource
    simp only [hb, true_or, if_pos]
    split <;> rfl

/-- Witness for C7 at a concrete store holding the built-in
`authz:superuser` resource document (managed by seacat-auth): both update
and delete fail with `NotEditableError` and the store is unchanged. -/
theorem claim_C7_managed_resource_not_editable_witness :
    resource_update [superuserResource] [superuserResource] resourceStoreExample
        superuserResource ("new description")
      = (resourceStoreExample, .error .notEditableError)
    ∧ resource_delete [superuserResource] [superuserResource] resourceStoreExample
        superuserResource false
      = (resourceStoreExample, .error .notEditableError)
    ∧ (∀ doc : ResourceDoc, doc.rid ∈ [superuserResource] →
        (normalize_resource [superuserResource] [superuserResource] doc).read_only = true) :=
  claim_C7_managed_resource_not_editable [superuserResource] [superuserResource]
    resourceStoreExample superuserResource resourceDocExample ("new description")
    false rfl (by decide)

/-- Claim C8 (code bug): the claim and the `ValidationError` message of
`ResourceService.create` state that a resource id is between 2 and 128
characters long and that anything longer than 128 characters is rejected,
but the compiled pattern `^[a-z][a-z0-9:._-]{0,128}[a-z0-9]$` accepts up to
1 + 128 + 1 = 130 characters: the 130-character identifier `"aaa...a"` is
accepted by `create`. -/
theorem claim_C8_resource_name_length_code_bug :
    resource_create_accepts (String.mk (List.replicate 130 'a')) = true
    ∧ 128 < (String.mk (List.replicate 130 'a')).length := by
  constructor
  · decide
  · decide

/-- Claim C9 (code bug): `login_prologue` never reaches its success
response.  Line 128 of authn/handler.py reads the local variable
`credentials_id`, which no statement of the function ever assigns, so every
request that passes the query-string validation and the login-session lookup
raises `NameError` instead of answering with the login session id, server
public key and descriptor list.  In particular the plain valid request with
ident `user@example.com` and no `lsid` does. -/
theorem claim_C9_login_prologue_name_error :
    (∀ (custom : List String) (sessions : String → Bool) (req : PrologueRequest),
      prologue_is_success (login_prologue custom sessions req) = false)
    ∧ login_prologue [] (fun _ => false)
        { ident := "user@example.com", lsid := none, qs := none }
      = .prologueNameError credentialsIdVar := by
  constructor
  · intro custom sessions req
    obtain ⟨i, lsid, qs⟩ := req
    simp only [login_prologue]
    split
    · rfl
    · split <;> rfl
  · rfl

/-- Invariant of the scope loop of `get_tenants_by_scope`: every tenant in a
successful result was already in the accumulator, is assigned to the
credential, or was added through the all-tenants-access path after a
successful existence lookup. -/
theorem get_tenants_by_scope_loop_mem (db : TenantDb) (cid : String) (has : Bool)
    (scope : List String) :
    ∀ (acc ts : Finset String),
      get_tenants_by_scope_loop db cid has scope acc = .ok ts →
      ∀ t ∈ ts, t ∈ acc ∨ t ∈ db.userTenants
        ∨ (has = true ∧ db.tenantExists t = true) := by
  induction scope with
  | nil =>
    intro acc ts h t ht
    simp only [get_tenants_by_scope_loop, Except.ok.injEq] at h
    subst h
    exact Or.inl ht
  | cons r rest ih =>
    intro acc ts h t ht
    simp only [get_tenants_by_scope_loop] at h
    split at h
    · exact ih acc ts h t ht
    · split at h
      · rcases ih _ ts h t ht with hacc | h2 | h3
        · rcases Finset.mem_union.mp hacc with hm | hm
          · exact Or.inl hm
          · exact Or.inr (Or.inl (List.mem_toFinset.mp hm))
        · exact Or.inr (Or.inl h2)
        · exact Or.inr (Or.inr h3)
      · split at h
        · rename_i hmem
          rcases ih _ ts h t ht with hacc | h2 | h3
          · rcases Finset.mem_insert.mp hacc with hm | hm
            · subst hm
              exact Or.inr (Or.inl hmem)
            · exact Or.inl hm
          · exact Or.inr (Or.inl h2)
          · exact Or.inr (Or.inr h3)
        · split at h
          · split at h
            · rename_i hhas hex
              rcases ih _ ts h t ht with hacc | h2 | h3
              · rcases Finset.mem_insert.mp hacc with hm | hm
                · subst hm
                  exact Or.inr (Or.inr ⟨hhas, hex⟩)
                · exact Or.inl hm
              · exact Or.inr (Or.inl h2)
              · exact Or.inr (Or.inr h3)
            · exact Except.noConfusion h
          · split at h
            · exact Except.noConfusion h
            · exact Except.noConfusion h

/-- Claim C10: every tenant returned by `get_tenants_by_scope` is either
assigned to the credential, or entered through the
`has_access_to_all_tenants` path after a successful existence lookup.  In
particular, with `has_access_to_all_tenants = false` the result only
contains tenants assigned to the credential. -/
theorem claim_C10_tenant_scope_containment
    (db : TenantDb) (scope : List String) (cid : String) (has : Bool)
    (ts : Finset String)
    (hok : get_tenants_by_scope db scope cid has = .ok ts) :
    ∀ t ∈ ts, t ∈ db.userTenants ∨ (has = true ∧ db.tenantExists t = true) := by
  intro t ht
  unfold get_tenants_by_scope at hok
  cases hloop : get_tenants_by_scope_loop db cid has scope ∅ with
  | error e =>
    rw [hloop] at hok
    exact Except.noConfusion hok
  | ok tenants =>
    rw [hloop] at hok
    replace hok :
        (if tenants = ∅ ∧ bareTenantScope ∈ scope then
          match db.lastAuthorizedTenants.filter (fun x => decide (x ∈ db.userTenants)) with
          | t1 :: _ => Except.ok (insert t1 tenants)
          | [] =>
            match db.userTenants with
            | u :: _ => Except.ok (insert u tenants)
            | [] => Except.error (TenantScopeError.noTenantsError cid)
        else Except.ok tenants) = Except.ok ts := hok
    split at hok
    · rename_i hcond
      split at hok
      · rename_i t1 tl hfilter
        rw [Except.ok.injEq] at hok
        subst hok
        rcases Finset.mem_insert.mp ht with hm | hm
        · subst hm
          have ht1 : t ∈ db.lastAuthorizedTenants.filter
              (fun x => decide (x ∈ db.userTenants)) := by
            rw [hfilter]
            exact List.mem_cons_self _ _
          have := List.of_mem_filter ht1
          exact Or.inl (of_decide_eq_true this)
        · rw [hcond.1] at hm
          exact absurd hm (Finset.not_mem_empty t)
      · split at hok
        · rename_i u urest huser
          rw [Except.ok.injEq] at hok
          subst hok
          rcases Finset.mem_insert.mp ht with hm | hm
          · subst hm
            rw [huser]
            exact Or.inl (List.mem_cons_self _ _)
          · rw [hcond.1] at hm
            exact absurd hm (Finset.not_mem_empty t)
        · exact Except.noConfusion hok
    · rw [Except.ok.injEq] at hok
      subst hok
      rcases get_tenants_by_scope_loop_mem db cid has scope ∅ tenants hloop t ht with
        hm | hm | hm
      · exact absurd hm (Finset.not_mem_empty t)
      · exact Or.inl hm
      · exact Or.inr hm

/-- Witness for C10: a credential assigned to `acme` and `beta`, scope
`["openid", "tenant:acme"]` and no all-tenants access resolve to `{acme}`,
and every member of the result is an assigned tenant. -/
theorem claim_C10_tenant_scope_containment_witness :
    ("acme" : String) ∈ tenantDbExample.userTenants
      ∨ (false = true ∧ tenantDbExample.tenantExists ("acme") = true) :=
  claim_C10_tenant_scope_containment tenantDbExample tenantScopeExample
    credentialsIdExample false {"acme"} (by decide) ("acme") (by decide)

/-- `List.find?` returns the head of the filtered list. -/
theorem find_eq_filter_head (p : String → Bool) (l : List String) :
    l.find? p = (l.filter p).head? := by
  induction l with
  | nil => rfl
  | cons a t ih =>
    cases h : p a
    · rw [List.find?_cons_of_neg _ (by simp [h]),
        List.filter_cons_of_neg (by simp [h]), ih]
    · rw [List.find?_cons_of_pos _ h, List.filter_cons_of_pos h, List.head?_cons]

/-- Claim C6: when the scope contains the bare entry `"tenant"` and the scope
loop resolved no tenant, `get_tenants_by_scope` falls back to the
most-recently-authorized tenant still assigned to the credential when one is
recorded, else to the first tenant in the credential's assignment order, and
fails with `NoTenantsError` when the credential has no assigned tenants. -/
theorem claim_C6_bare_tenant_fallback
    (db : TenantDb) (scope : List String) (cid : String) (has : Bool)
    (hloop : get_tenants_by_scope_loop db cid has scope ∅ = .ok ∅)
    (hbare : bareTenantScope ∈ scope) :
    (∀ t, most_recently_authorized db = some t →
      get_tenants_by_scope db scope cid has = .ok {t})
    ∧ (most_recently_authorized db = none →
      ∀ u urest, db.userTenants = u :: urest →
        get_tenants_by_scope db scope cid has = .ok {u})
    ∧ (db.userTenants = [] →
      get_tenants_by_scope db scope cid has = .error (.noTenantsError cid)) := by
  have hfb : get_tenants_by_scope db scope cid has =
      (match db.lastAuthorizedTenants.filter (fun t => decide (t ∈ db.userTenants)) with
       | t :: _ => Except.ok (insert t (∅ : Finset String))
       | [] =>
         match db.userTenants with
         | u :: _ => Except.ok (insert u (∅ : Finset String))
         | [] => Except.error (TenantScopeError.noTenantsError cid)) := by
    unfold get_tenants_by_scope
    rw [hloop]
    exact if_pos ⟨rfl, hbare⟩
  refine ⟨?_, ?_, ?_⟩
  · intro t hfind
    rw [most_recently_authorized, find_eq_filter_head] at hfind
    rw [hfb]
    rcases hfilter : db.lastAuthorizedTenants.filter
        (fun t => decide (t ∈ db.userTenants)) with _ | ⟨t1, tl⟩
    · rw [hfilter] at hfind
      exact Option.noConfusion hfind
    · rw [hfilter] at hfind
      rw [List.head?_cons, Option.some.injEq] at hfind
      subst hfind
      rfl
  · intro hfind u urest huser
    rw [most_recently_authorized, find_eq_filter_head] at hfind
    rw [hfb]
    rcases hfilter : db.lastAuthorizedTenants.filter
        (fun t => decide (t ∈ db.userTenants)) with _ | ⟨t1, tl⟩
    · rw [huser]
      exact rfl
    · rw [hfilter] at hfind
      exact Option.noConfusion hfind
  · intro huser
    have hfilter : db.lastAuthorizedTenants.filter
        (fun t => decide (t ∈ db.userTenants)) = [] := by
      rw [List.filter_eq_nil_iff]
      intro a _
      rw [huser]
      simp
    rw [hfb, hfilter, huser]

/-- Witness for C6: the scope `["openid", "tenant"]` with a credential
assigned to `acme` and `beta` whose last authorized tenant is `beta`
resolves to `{beta}`. -/
theorem claim_C6_bare_tenant_fallback_witness :
    get_tenants_by_scope tenantDbExample bareTenantScopeExample
      credentialsIdExample false = .ok {"beta"} :=
  (claim_C6_bare_tenant_fallback tenantDbExample bareTenantScopeExample
    credentialsIdExample false (by decide) (by decide)).1 ("beta") (by decide)

/-- The query dictionary built by `reply_with_authentication_error` always
starts with the `error` parameter. -/
theorem reply_with_authentication_error_query_head
    (base err : String) (uri desc euri st : Option String) :
    ∃ rest, (reply_with_authentication_error base err uri desc euri st).query
      = (errorKey, err) :: rest := by
  cases uri <;> cases desc <;> cases euri <;> cases st <;> exact ⟨_, rfl⟩

/-- Claim C5: whenever tenant-scope resolution is denied
(`TenantNotFoundError`, `TenantAccessDeniedError` or `NoTenantsError`), the
authorize flow aborts with a reply whose `error` parameter is
`access_denied` and writes exactly one audit error record carrying the
specific sub-reason (`tenant_not_found`, `unauthorized_tenant` or
`user_has_no_tenant` respectively). -/
theorem claim_C5_tenant_denial_access_denied_audit
    (base : String) (db : TenantDb) (scope : List String) (cid : String)
    (has : Bool) (client_id redirect_uri : String) (state : Option String)
    (e : TenantScopeError)
    (herr : get_tenants_by_scope db scope cid has = .error e) :
    (authentication_code_flow_tenant_step base db scope cid has client_id
      redirect_uri state).tenants = none
    ∧ (∃ u, (authentication_code_flow_tenant_step base db scope cid has client_id
        redirect_uri state).reply = some u
        ∧ u.query.lookup errorKey = some accessDeniedCode)
    ∧ (authentication_code_flow_tenant_step base db scope cid has client_id
        redirect_uri state).audit
      = [.authorizeError client_id (tenant_scope_denial_sub_reason e)] := by
  have hh : authorize_tenants_by_scope_handler db scope cid has client_id
      = (.error (), [.authorizeError client_id (tenant_scope_denial_sub_reason e)]) := by
    unfold authorize_tenants_by_scope_handler
    rw [herr]
    cases e <;> rfl
  unfold authentication_code_flow_tenant_step
  rw [hh]
  refine ⟨rfl, ?_, rfl⟩
  obtain ⟨rest, hq⟩ := reply_with_authentication_error_query_head base
    accessDeniedCode (some redirect_uri) none none state
  refine ⟨_, rfl, ?_⟩
  rw [hq]
  simp [List.lookup]

/-- Witness for C5: a credential with no tenants requesting
`["openid", "tenant:acme"]` is denied with `NoTenantsError`; the step
replies with `error=access_denied` and audits
`access_denied:user_has_no_tenant`. -/
theorem claim_C5_tenant_denial_access_denied_audit_witness :
    (authentication_code_flow_tenant_step publicApiBaseUrlExample tenantDbEmpty
      tenantScopeExample credentialsIdExample false clientIdExample
      redirectUriExample none).tenants = none
    ∧ (∃ u, (authentication_code_flow_tenant_step publicApiBaseUrlExample
        tenantDbEmpty tenantScopeExample credentialsIdExample false
        clientIdExample redirectUriExample none).reply = some u
        ∧ u.query.lookup errorKey = some accessDeniedCode)
    ∧ (authentication_code_flow_tenant_step publicApiBaseUrlExample tenantDbEmpty
        tenantScopeExample credentialsIdExample false clientIdExample
        redirectUriExample none).audit
      = [.authorizeError clientIdExample
          (tenant_scope_denial_sub_reason (.noTenantsError credentialsIdExample))] :=
  claim_C5_tenant_denial_access_denied_audit publicApiBaseUrlExample tenantDbEmpty
    tenantScopeExample credentialsIdExample false clientIdExample
    redirectUriExample none (.noTenantsError credentialsIdExample) (by decide)

/-! ### Query-dictionary lemmas used for the successful-response claim -/

theorem valuesOf_append (k : String) (q1 q2 : List (String × String)) :
    valuesOf k (q1 ++ q2) = valuesOf k q1 ++ valuesOf k q2 := by
  simp [valuesOf, List.filter_append]

theorem valuesOf_map_const (k k' : String) (vs : List String) :
    valuesOf k (vs.map (fun v => (k', v))) = if k' = k then vs else [] := by
  induction vs with
  | nil => by_cases h : k' = k <;> simp [valuesOf, h]
  | cons v vt ih => by_cases h : k' = k <;> (simp [valuesOf, h] at ih ⊢; try exact ih)

theorem valuesOf_flattenDoseq (k : String) (d : List (String × List String)) :
    valuesOf k (flattenDoseq d)
      = ((d.filter (fun p => p.1 = k)).map Prod.snd).flatten := by
  induction d with
  | nil => rfl
  | cons p rest ih =>
    obtain ⟨k', vs⟩ := p
    show valuesOf k (vs.map (fun v => (k', v)) ++ flattenDoseq rest) = _
    rw [valuesOf_append, valuesOf_map_const, ih]
    by_cases h : k' = k <;> simp [List.filter_cons, h]

theorem mem_firstKeys (k : String) (q : List (String × String)) :
    k ∈ firstKeys q ↔ k ∈ q.map Prod.fst := by
  induction q with
  | nil => simp [firstKeys]
  | cons p rest ih =>
    simp only [firstKeys, List.map_cons, List.mem_cons, List.mem_filter]
    constructor
    · rintro (h | ⟨h, _⟩)
      · exact Or.inl h
      · exact Or.inr (ih.mp h)
    · rintro (h | h)
      · exact Or.inl h
      · by_cases hk : k = p.1
        · exact Or.inl hk
        · exact Or.inr ⟨ih.mpr h, by simp [hk]⟩

theorem nodup_firstKeys (q : List (String × String)) : (firstKeys q).Nodup := by
  induction q with
  | nil => exact List.nodup_nil
  | cons p rest ih =>
    rw [firstKeys, List.nodup_cons]
    refine ⟨?_, List.Nodup.filter _ ih⟩
    intro hmem
    have := (List.mem_filter.mp hmem).2
    simp at this

theorem filter_map_key (g : String → List String) (k : String) :
    ∀ (L : List String), L.Nodup →
      ((L.map (fun x => (x, g x))).filter (fun p => p.1 = k))
        = if k ∈ L then [(k, g k)] else [] := by
  intro L
  induction L with
  | nil => intro _; simp
  | cons a t ih =>
    intro hnd
    rw [List.nodup_cons] at hnd
    simp only [List.map_cons, List.filter_cons]
    by_cases h : a = k
    · subst h
      have ht : ((t.map fun x => (x, g x)).filter (fun p => p.1 = a)) = [] := by
        rw [ih hnd.2, if_neg hnd.1]
      simp [ht]
    · have h' : ¬ (k = a) := fun hh => h hh.symm
      simp [h, h', ih hnd.2, List.mem_cons]

theorem filter_groupQuery (q : List (String × String)) (k : String) :
    (groupQuery q).filter (fun p => p.1 = k)
      = if k ∈ firstKeys q then [(k, valuesOf k q)] else [] := by
  unfold groupQuery
  exact filter_map_key (fun x => valuesOf x q) k (firstKeys q) (nodup_firstKeys q)

theorem valuesOf_not_mem_firstKeys (k : String) (q : List (String × String))
    (h : k ∉ firstKeys q) : valuesOf k q = [] := by
  rw [mem_firstKeys] at h
  unfold valuesOf
  rw [List.map_eq_nil_iff, List.filter_eq_nil_iff]
  intro p hp
  simp only [decide_eq_true_eq]
  intro hpk
  exact h (hpk ▸ List.mem_map_of_mem Prod.fst hp)

theorem valuesOf_flatten_group (k : String) (q : List (String × String)) :
    valuesOf k (flattenDoseq (groupQuery q)) = valuesOf k q := by
  rw [valuesOf_flattenDoseq, filter_groupQuery]
  by_cases h : k ∈ firstKeys q
  · rw [if_pos h]
    simp
  · rw [if_neg h]
    simp [valuesOf_not_mem_firstKeys k q h]

theorem filter_replace_ne (d : List (String × List String)) (k : String)
    (v : List String) (k' : String) (h : ¬ k' = k) :
    ((d.map (fun p => if p.1 = k then (k, v) else p)).filter (fun p => p.1 = k'))
      = d.filter (fun p => p.1 = k') := by
  induction d with
  | nil => rfl
  | cons p rest ih =>
    simp only [List.map_cons, List.filter_cons]
    by_cases hp : p.1 = k
    · have h1 : ¬ ((k, v).1 = k') := fun hh => h hh.symm
      have h2 : ¬ (p.1 = k') := fun hh => h (hh.symm.trans hp)
      simp [hp, h1, h2, ih]
    · simp only [if_neg hp, ih]

theorem filter_replace_self (k : String) (v : List String) :
    ∀ (d : List (String × List String)), ((d.map Prod.fst).Nodup) →
      k ∈ d.map Prod.fst →
      ((d.map (fun p => if p.1 = k then (k, v) else p)).filter (fun p => p.1 = k))
        = [(k, v)] := by
  intro d
  induction d with
  | nil =>
    intro _ hm
    cases hm
  | cons p rest ih =>
    intro hnd hm
    rw [List.map_cons, List.nodup_cons] at hnd
    rw [List.map_cons] at hm
    simp only [List.map_cons, List.filter_cons]
    by_cases hp : p.1 = k
    · rw [if_pos hp]
      have hrest : ((rest.map (fun p => if p.1 = k then (k, v) else p)).filter
          (fun p => p.1 = k)) = [] := by
        rw [List.filter_eq_nil_iff]
        intro a ha
        obtain ⟨p', hp', rfl⟩ := List.mem_map.mp ha
        by_cases hpk : p'.1 = k
        · exact absurd (hpk ▸ List.mem_map_of_mem Prod.fst hp') (hp ▸ hnd.1)
        · simp [hpk]
      simp [hrest]
    · rw [if_neg hp]
      have hm' : k ∈ rest.map Prod.fst := by
        rcases List.mem_cons.mp hm with hh | hh
        · exact absurd hh.symm hp
        · exact hh
      simp [hp, ih hnd.2 hm']

theorem filter_dictSet_ne (d : List (String × List String)) (k : String)
    (v : List String) (k' : String) (h : ¬ k' = k) :
    (dictSet d k v).filter (fun p => p.1 = k')
      = d.filter (fun p => p.1 = k') := by
  unfold dictSet
  by_cases hm : k ∈ d.map Prod.fst
  · rw [if_pos hm]
    exact filter_replace_ne d k v k' h
  · rw [if_neg hm, List.filter_append]
    have h2 : ¬ (k = k') := fun hh => h hh.symm
    have hone : ([(k, v)].filter (fun p => p.1 = k')) = [] := by simp [h2]
    rw [hone, List.append_nil]

theorem filter_dictSet_self (d : List (String × List String)) (k : String)
    (v : List String) (hnd : (d.map Prod.fst).Nodup) :
    (dictSet d k v).filter (fun p => p.1 = k) = [(k, v)] := by
  unfold dictSet
  by_cases hm : k ∈ d.map Prod.fst
  · rw [if_pos hm]
    exact filter_replace_self k v d hnd hm
  · rw [if_neg hm, List.filter_append]
    have hd : (d.filter (fun p => p.1 = k)) = [] := by
      rw [List.filter_eq_nil_iff]
      intro a ha
      simp only [decide_eq_true_eq]
      intro hak
      exact hm (hak ▸ List.mem_map_of_mem Prod.fst ha)
    rw [hd, List.nil_append]
    simp

theorem nodup_keys_groupQuery (q : List (String × String)) :
    ((groupQuery q).map Prod.fst).Nodup := by
  unfold groupQuery
  rw [List.map_map]
  have hcomp : (Prod.fst ∘ fun k => (k, valuesOf k q)) = id := rfl
  rw [hcomp, List.map_id]
  exact nodup_firstKeys q

theorem nodup_keys_dictSet (d : List (String × List String)) (k : String)
    (v : List String) (h : (d.map Prod.fst).Nodup) :
    ((dictSet d k v).map Prod.fst).Nodup := by
  unfold dictSet
  by_cases hm : k ∈ d.map Prod.fst
  · rw [if_pos hm, List.map_map]
    have hkeys : (d.map (Prod.fst ∘ fun p => if p.1 = k then (k, v) else p))
        = d.map Prod.fst := by
      refine List.map_congr_left ?_
      intro p _
      by_cases hp : p.1 = k <;> simp [hp]
    rw [hkeys]
    exact h
  · rw [if_neg hm, List.map_append]
    refine List.Nodup.append h (List.nodup_singleton k) ?_
    intro a ha hb
    rw [List.map_singleton, List.mem_singleton] at hb
    subst hb
    exact hm ha

theorem valuesOf_flatten_dictSet_self (d : List (String × List String))
    (k : String) (v : List String) (hnd : (d.map Prod.fst).Nodup) :
    valuesOf k (flattenDoseq (dictSet d k v)) = v := by
  rw [valuesOf_flattenDoseq, filter_dictSet_self d k v hnd]
  simp

theorem valuesOf_flatten_dictSet_ne (d : List (String × List String))
    (k : String) (v : List String) (k' : String) (h : ¬ k' = k) :
    valuesOf k' (flattenDoseq (dictSet d k v))
      = valuesOf k' (flattenDoseq d) := by
  rw [valuesOf_flattenDoseq, valuesOf_flattenDoseq, filter_dictSet_ne d k v k' h]

/-- Claim C4 counterexample: the claim states that no existing same-named
query parameter of the redirect URI is overwritten except `state`, but the
source assigns `url_qs["code"] = ...` into the parsed query dict, which
overwrites an existing `code` parameter: for the redirect URI
`https://client.example/cb?code=old&foo=bar` the pair `code=old` is present
in the parsed redirect URI but absent from the success reply, whose only
`code` value is the newly minted authorization code. -/
theorem claim_C4_counterexample :
    (codeKey, ("old" : String)) ∈ (urlparse redirectUriWithCodeExample).query
    ∧ ¬ ((codeKey, ("old" : String)) ∈
        (reply_with_successful_response newCodeExample redirectUriWithCodeExample
          none).query)
    ∧ valuesOf codeKey
        (reply_with_successful_response newCodeExample redirectUriWithCodeExample
          none).query
      = [newCodeExample] := by
  refine ⟨by decide, by decide, by decide⟩

/-- Claim C4 as amended: the success reply is a redirect to `redirect_uri`
that preserves scheme, netloc, path, params and fragment, and whose query is
the redirect URI's query with `state` (when present in the request, verbatim)
and the minted `code` assigned Python-dict style: every parameter named
neither `state` nor `code` keeps exactly its original values, `code` carries
exactly the minted code, and `state` carries exactly the request's state when
present - `state` and `code` both overwrite any existing same-named
parameter. -/
theorem claim_C4_amended_success_reply (code : String) (url : Url)
    (state : Option String) :
    (∀ k, ¬ k = stateKey → ¬ k = codeKey →
      valuesOf k (reply_with_successful_response_core code url state).query
        = valuesOf k url.query)
    ∧ valuesOf codeKey (reply_with_successful_response_core code url state).query
      = [code]
    ∧ (∀ s, state = some s →
      valuesOf stateKey (reply_with_successful_response_core code url state).query
        = [s])
    ∧ (state = none →
      valuesOf stateKey (reply_with_successful_response_core code url state).query
        = valuesOf stateKey url.query)
    ∧ (reply_with_successful_response_core code url state).scheme = url.scheme
    ∧ (reply_with_successful_response_core code url state).netloc = url.netloc
    ∧ (reply_with_successful_response_core code url state).path = url.path
    ∧ (reply_with_successful_response_core code url state).params = url.params
    ∧ (reply_with_successful_response_core code url state).fragment = url.fragment := by
  have nd0 : ((groupQuery url.query).map Prod.fst).Nodup := nodup_keys_groupQuery url.query
  refine ⟨?_, ?_, ?_, ?_, rfl, rfl, rfl, rfl, rfl⟩
  · intro k hks hkc
    cases state with
    | none =>
      simp only [reply_with_successful_response_core]
      rw [valuesOf_flatten_dictSet_ne _ _ _ _ hkc, valuesOf_flatten_group]
    | some s =>
      simp only [reply_with_successful_response_core]
      rw [valuesOf_flatten_dictSet_ne _ _ _ _ hkc,
        valuesOf_flatten_dictSet_ne _ _ _ _ hks, valuesOf_flatten_group]
  · cases state with
    | none =>
      simp only [reply_with_successful_response_core]
      rw [valuesOf_flatten_dictSet_self _ _ _ nd0]
    | some s =>
      simp only [reply_with_successful_response_core]
      rw [valuesOf_flatten_dictSet_self _ _ _ (nodup_keys_dictSet _ _ _ nd0)]
  · intro s hs
    subst hs
    simp only [reply_with_successful_response_core]
    rw [valuesOf_flatten_dictSet_ne _ _ _ _ (by decide),
      valuesOf_flatten_dictSet_self _ _ _ nd0]
  · intro hn
    subst hn
    simp only [reply_with_successful_response_core]
    rw [valuesOf_flatten_dictSet_ne _ _ _ _ (by decide), valuesOf_flatten_group]

/-- Witness for the amended C4: in the reply for
`https://client.example/cb?code=old&foo=bar` with no request state, the
untouched parameter `foo` keeps exactly its original values. -/
theorem claim_C4_amended_success_reply_witness :
    valuesOf fooKeyExample
      (reply_with_successful_response_core newCodeExample
        (urlparse redirectUriWithCodeExample) none).query = [("bar" : String)] :=
  ((claim_C4_amended_success_reply newCodeExample
    (urlparse redirectUriWithCodeExample) none).1
      fooKeyExample (by decide) (by decide)).trans (by decide)

/-- Claim C3 (code bug): on an authorize request with `prompt=none` and no
valid root session the branch writes exactly one audit error entry with
error `login_required`, creates no login session and no client session, and
replies with an immediate redirect - but the redirect does not carry
`error=login_required` to the client's redirect URI.  Because the source
passes `request` as an extra first positional argument of
`reply_with_authentication_error`, the reply redirects to the literal
relative path `"login_required"`, its `error` query parameter is the
stringified request object and its `error_description` parameter is the
actual redirect URI. -/
theorem claim_C3_prompt_none_login_required_code_bug :
    (authorize_prompt_none_no_session publicApiBaseUrlExample requestReprExample
      clientIdExample redirectUriExample none).location.path = loginRequiredCode
    ∧ (authorize_prompt_none_no_session publicApiBaseUrlExample requestReprExample
        clientIdExample redirectUriExample none).location.netloc = ""
    ∧ (authorize_prompt_none_no_session publicApiBaseUrlExample requestReprExample
        clientIdExample redirectUriExample none).location.query.lookup errorKey
      = some requestReprExample
    ∧ ¬ requestReprExample = loginRequiredCode
    ∧ (authorize_prompt_none_no_session publicApiBaseUrlExample requestReprExample
        clientIdExample redirectUriExample none).location.query.lookup
          errorDescriptionKey
      = some redirectUriExample
    ∧ (authorize_prompt_none_no_session publicApiBaseUrlExample requestReprExample
        clientIdExample redirectUriExample none).audit
      = [.authorizeError clientIdExample loginRequiredCode]
    ∧ (authorize_prompt_none_no_session publicApiBaseUrlExample requestReprExample
        clientIdExample redirectUriExample none).loginSessionCreated = false
    ∧ (authorize_prompt_none_no_session publicApiBaseUrlExample requestReprExample
        clientIdExample redirectUriExample none).clientSessionCreated = false := by
  refine ⟨by decide, by decide, by decide, by decide, by decide, by decide,
    by decide, by decide⟩

end SeacatAuth
